import Mathlib

/-!
# Verification of the fabric subscription-reward model

Shallow embedding of `src/src/index.ts` (class `SubscriptionModel`): the
tier / curve / fee configuration records, the mutable `SubscriptionState`,
and the operations `calculateMultiplier`, `addSubscriber`,
`calculateRewards`, `calculateROI` and `simulateScenario`.

Modelling choices:
* JavaScript numbers are modelled as exact rationals (`ℚ`); `Math.floor`
  is `Int.floor`, `Math.pow` with the integer exponent that occurs in the
  source is `zpow`.  All spec claims speak about exact arithmetic.
* The JS `Map<string, Subscriber>` is an insertion-ordered association
  list with `Map.set` replace-in-place semantics (`mapSet`) and `Map.get`
  (`mapGet`); `size` is `List.length`, `forEach`-accumulation of sums is a
  fold over the entries.
* The address strings used by the simulator, `"subscriber-" ++ k` and
  `"test-subscriber"`, form an injective encoding of `ℕ ⊕ unit`; we model
  the address space by the inductive type `Addr` with constructors
  `Addr.regular k` and `Addr.test`, which has exactly the same equality
  structure.
-/

/- The simulator definitions appear after the engine; addresses first. -/

/-- Addresses: `Addr.regular k` stands for the string `subscriber-{k}`,
`Addr.test` for the string `test-subscriber`. -/
inductive Addr : Type
  | regular : Nat → Addr
  | test : Addr
deriving DecidableEq, Repr

/-- `TierConfig` from the source. -/
structure TierConfig : Type where
  rewardBasisPoints : ℚ
  initialMintPrice : ℚ
  pricePerPeriod : ℚ
deriving DecidableEq, Repr

/-- `CurveConfig` from the source.  `numPeriods` is used only in integer
comparisons and exponents, we keep it as `ℤ`. -/
structure CurveConfig : Type where
  numPeriods : ℤ
  formulaBase : ℚ
  startTimestamp : ℚ
  minMultiplier : ℚ
deriving DecidableEq, Repr

/-- `FeeConfig` from the source. -/
structure FeeConfig : Type where
  protocolBps : ℚ
  clientBps : ℚ
deriving DecidableEq, Repr

/-- `Subscriber` record from the source. -/
structure Subscriber : Type where
  tierId : ℕ
  subscriptionStart : ℚ
  expiresAt : ℚ
  rewardShares : ℚ
  totalSpent : ℚ
deriving DecidableEq, Repr

/-- One per-month snapshot (`SimulationResult` in the source).  The
optional `testSubscriberRoi` is always set by `simulateScenario`, so we
keep it as a plain field. -/
structure SimulationResult : Type where
  month : ℕ
  subscribers : ℕ
  avgRoi : ℚ
  creatorEarnings : ℚ
  clientEarnings : ℚ
  protocolEarnings : ℚ
  subscriberRewards : ℚ
  testSubscriberRoi : ℚ
deriving DecidableEq, Repr

/-- `SubscriptionState` from the source; the `Map` is an
insertion-ordered association list. -/
structure SubscriptionState : Type where
  subscribers : List (Addr × Subscriber)
  rewardPool : ℚ
  totalShares : ℚ
  creatorBalance : ℚ
  protocolEarnings : ℚ
  clientEarnings : ℚ
deriving DecidableEq, Repr

def ONE_YEAR_DAYS : ℚ := 365
def ONE_MONTH_DAYS : ℚ := 30
def ONE_MONTH_SECONDS : ℚ := ONE_MONTH_DAYS * 24 * 60 * 60
def MAX_BPS : ℚ := 10000
def AVG_SUB_MONTHS : ℚ := 12
def INITIAL_SUBSCRIBERS : ℕ := 50

/-- `Map.get`: first entry with the given key, if any. -/
def mapGet (k : Addr) : List (Addr × Subscriber) → Option Subscriber
  | [] => none
  | (k₂, v) :: rest => if k = k₂ then some v else mapGet k rest

/-- `Map.set`: replace in place if the key exists, else append. -/
def mapSet (k : Addr) (v : Subscriber) :
    List (Addr × Subscriber) → List (Addr × Subscriber)
  | [] => [(k, v)]
  | (k₂, v₂) :: rest =>
      if k = k₂ then (k, v) :: rest else (k₂, v₂) :: mapSet k v rest

/-- `getInitialState` from the source. -/
def getInitialState : SubscriptionState where
  subscribers := []
  rewardPool := 0
  totalShares := 0
  creatorBalance := 0
  protocolEarnings := 0
  clientEarnings := 0

/-- The `periodsElapsed` intermediate of `calculateMultiplier`
(`Math.floor` of months elapsed since the curve start). -/
def periodsElapsed (curve : CurveConfig) (timestamp : ℚ) : ℤ :=
  ⌊(timestamp - curve.startTimestamp) / ONE_MONTH_SECONDS⌋

/-- `calculateMultiplier` from the source. -/
def calculateMultiplier (curve : CurveConfig) (timestamp : ℚ) : ℚ :=
  if curve.numPeriods ≤ periodsElapsed curve timestamp then
    curve.minMultiplier
  else
    max (curve.formulaBase ^ (curve.numPeriods - periodsElapsed curve timestamp))
      curve.minMultiplier

/-! The intermediate quantities computed inside `addSubscriber`, named as
in the source; `addSubscriber` is assembled from them. -/

def subscriptionMonths (subscriptionDays : ℚ) : ℚ := subscriptionDays / ONE_MONTH_DAYS

def subscriptionSeconds (subscriptionDays : ℚ) : ℚ :=
  subscriptionMonths subscriptionDays * ONE_MONTH_SECONDS

def payment (tier : TierConfig) (subscriptionDays : ℚ) : ℚ :=
  tier.initialMintPrice + subscriptionMonths subscriptionDays * tier.pricePerPeriod

def protocolFee (tier : TierConfig) (fees : FeeConfig) (subscriptionDays : ℚ) : ℚ :=
  payment tier subscriptionDays * fees.protocolBps / MAX_BPS

def clientFee (tier : TierConfig) (fees : FeeConfig) (subscriptionDays : ℚ) : ℚ :=
  payment tier subscriptionDays * fees.clientBps / MAX_BPS

def netPayment (tier : TierConfig) (fees : FeeConfig) (subscriptionDays : ℚ) : ℚ :=
  payment tier subscriptionDays - protocolFee tier fees subscriptionDays -
    clientFee tier fees subscriptionDays

def rewardAmount (tier : TierConfig) (fees : FeeConfig) (subscriptionDays : ℚ) : ℚ :=
  netPayment tier fees subscriptionDays * tier.rewardBasisPoints / MAX_BPS

def shares (tier : TierConfig) (curve : CurveConfig) (fees : FeeConfig)
    (timestamp subscriptionDays : ℚ) : ℚ :=
  rewardAmount tier fees subscriptionDays * calculateMultiplier curve timestamp *
    (subscriptionMonths subscriptionDays / 12)

/-- `addSubscriber` from the source, as a state transformer. -/
def addSubscriber (tier : TierConfig) (curve : CurveConfig) (fees : FeeConfig)
    (st : SubscriptionState) (address : Addr) (timestamp subscriptionDays : ℚ) :
    SubscriptionState where
  subscribers :=
    mapSet address
      { tierId := 1
        subscriptionStart := timestamp
        expiresAt := timestamp + subscriptionSeconds subscriptionDays
        rewardShares := shares tier curve fees timestamp subscriptionDays
        totalSpent := payment tier subscriptionDays }
      st.subscribers
  totalShares := st.totalShares + shares tier curve fees timestamp subscriptionDays
  rewardPool := st.rewardPool + rewardAmount tier fees subscriptionDays
  creatorBalance := st.creatorBalance +
    (netPayment tier fees subscriptionDays - rewardAmount tier fees subscriptionDays)
  protocolEarnings := st.protocolEarnings + protocolFee tier fees subscriptionDays
  clientEarnings := st.clientEarnings + clientFee tier fees subscriptionDays

/-- `calculateRewards` from the source. -/
def calculateRewards (st : SubscriptionState) (address : Addr)
    (currentTimestamp : ℚ) : ℚ :=
  match mapGet address st.subscribers with
  | none => 0
  | some subscriber =>
      if currentTimestamp < subscriber.subscriptionStart then 0
      else st.rewardPool * (subscriber.rewardShares / st.totalShares)

/-- Result record of `calculateROI`. -/
structure RoiResult : Type where
  roi : ℚ
  spent : ℚ
  rewards : ℚ
deriving DecidableEq, Repr

/-- `calculateROI` from the source. -/
def calculateROI (st : SubscriptionState) (address : Addr)
    (currentTimestamp : ℚ) : RoiResult :=
  match mapGet address st.subscribers with
  | none => { roi := 0, spent := 0, rewards := 0 }
  | some subscriber =>
      let rewards := calculateRewards st address currentTimestamp
      { roi := (rewards / subscriber.totalSpent - 1) * 100
        spent := subscriber.totalSpent
        rewards := rewards }

/-- One call to `addSubscriber`, as data: the argument record of the
source method. -/
structure AddReq : Type where
  address : Addr
  timestamp : ℚ
  subscriptionDays : ℚ
deriving DecidableEq, Repr

/-- A sequence of `addSubscriber` calls, applied in order. -/
def runAdds (tier : TierConfig) (curve : CurveConfig) (fees : FeeConfig)
    (reqs : List AddReq) (st : SubscriptionState) : SubscriptionState :=
  reqs.foldl
    (fun s r => addSubscriber tier curve fees s r.address r.timestamp r.subscriptionDays)
    st

/-- Sum of the `rewardShares` stored in the subscriber map. -/
def sumShares (l : List (Addr × Subscriber)) : ℚ :=
  (l.map (fun e => e.2.rewardShares)).sum

/-- The gross payment of a single admission request. -/
def grossPayment (tier : TierConfig) (r : AddReq) : ℚ :=
  payment tier r.subscriptionDays

/-- The four cumulative currency totals of a state, taken together. -/
def totalFunds (st : SubscriptionState) : ℚ :=
  st.creatorBalance + st.rewardPool + st.protocolEarnings + st.clientEarnings

/-- The configuration constraints named by the claims: basis points in
`[0, 10000]`, non-negative prices, `formulaBase > 1`,
`minMultiplier ≥ 0`. -/
def ValidCfg (tier : TierConfig) (curve : CurveConfig) (fees : FeeConfig) : Prop :=
  0 ≤ tier.rewardBasisPoints ∧ tier.rewardBasisPoints ≤ MAX_BPS ∧
  0 ≤ tier.initialMintPrice ∧ 0 ≤ tier.pricePerPeriod ∧
  1 < curve.formulaBase ∧ 0 ≤ curve.minMultiplier ∧
  0 ≤ fees.protocolBps ∧ fees.protocolBps ≤ MAX_BPS ∧
  0 ≤ fees.clientBps ∧ fees.clientBps ≤ MAX_BPS

/-- Invariant of reachable well-formed states: non-negative pool,
`totalShares` equal to the stored sum, every stored share weight
non-negative, and a positive stored weight forcing a positive pool. -/
def StateInv (st : SubscriptionState) : Prop :=
  0 ≤ st.rewardPool ∧
  st.totalShares = sumShares st.subscribers ∧
  ∀ e ∈ st.subscribers,
    0 ≤ e.2.rewardShares ∧ (0 < e.2.rewardShares → 0 < st.rewardPool)

/-- A one-subscriber state whose pool share exactly equals the amount
spent. -/
def roiExampleState : SubscriptionState where
  subscribers := [(Addr.regular 1,
    { tierId := 1, subscriptionStart := 0, expiresAt := 0,
      rewardShares := 1, totalSpent := 5 })]
  rewardPool := 5
  totalShares := 1
  creatorBalance := 0
  protocolEarnings := 0
  clientEarnings := 0

/-! ### The scenario simulator (`simulateScenario`) -/

/-- The initial-cohort loop of `simulateScenario`: starting at loop
index `i`, admit `n` subscribers `subscriber-{i+1}, ...` at
`startTimestamp`, each for `AVG_SUB_MONTHS * ONE_MONTH_DAYS` days. -/
def addInitialFrom (tier : TierConfig) (curve : CurveConfig) (fees : FeeConfig)
    (startTimestamp : ℚ) : ℕ → ℕ → SubscriptionState → SubscriptionState
  | _, 0, st => st
  | i, Nat.succ n, st =>
      addInitialFrom tier curve fees startTimestamp (i + 1) n
        (addSubscriber tier curve fees st (Addr.regular (i + 1)) startTimestamp
          (AVG_SUB_MONTHS * ONE_MONTH_DAYS))

/-- The growth loop of one simulated month: admit `n` subscribers named
`subscriber-{size+1}` (size read from the current map) at `timestamp`. -/
def addGrown (tier : TierConfig) (curve : CurveConfig) (fees : FeeConfig)
    (timestamp : ℚ) : ℕ → SubscriptionState → SubscriptionState
  | 0, st => st
  | Nat.succ n, st =>
      addGrown tier curve fees timestamp n
        (addSubscriber tier curve fees st
          (Addr.regular (st.subscribers.length + 1)) timestamp
          (AVG_SUB_MONTHS * ONE_MONTH_DAYS))

/-- The `totalRoi` accumulator of the per-month `forEach`, skipping the
test subscriber. -/
def totalRoiExceptTest (st : SubscriptionState) (timestamp : ℚ) : ℚ :=
  st.subscribers.foldl
    (fun acc e =>
      if e.1 = Addr.test then acc else acc + (calculateROI st e.1 timestamp).roi) 0

/-- The `totalRewards` accumulator of the per-month `forEach`, skipping
the test subscriber. -/
def totalRewardsExceptTest (st : SubscriptionState) (timestamp : ℚ) : ℚ :=
  st.subscribers.foldl
    (fun acc e =>
      if e.1 = Addr.test then acc else acc + (calculateROI st e.1 timestamp).rewards) 0

/-- One iteration of the month loop of `simulateScenario`: returns the
updated state, the next `currentSubs` value, and the emitted snapshot. -/
def simMonth (tier : TierConfig) (curve : CurveConfig) (fees : FeeConfig)
    (startTimestamp rate : ℚ) (month : ℕ) (st : SubscriptionState)
    (currentSubs : ℕ) : SubscriptionState × ℕ × SimulationResult :=
  let timestamp := startTimestamp + (month : ℚ) * ONE_MONTH_SECONDS
  let newSubs := (⌊(currentSubs : ℚ) * rate⌋).toNat
  let st₂ := addGrown tier curve fees timestamp newSubs st
  let totalRoi := totalRoiExceptTest st₂ timestamp
  let totalRewards := totalRewardsExceptTest st₂ timestamp
  let regularSubCount := st₂.subscribers.length - 1
  let testAnalysis := calculateROI st₂ Addr.test timestamp
  let testRewards := calculateRewards st₂ Addr.test timestamp
  (st₂, regularSubCount,
    { month := month
      subscribers := regularSubCount
      avgRoi := totalRoi / (regularSubCount : ℚ)
      creatorEarnings := st₂.creatorBalance
      clientEarnings := st₂.clientEarnings
      protocolEarnings := st₂.protocolEarnings
      subscriberRewards := totalRewards + testRewards
      testSubscriberRoi := testAnalysis.roi })

/-- The month loop of `simulateScenario`: months `month, month+1, ...`,
`remaining` iterations. -/
def simLoop (tier : TierConfig) (curve : CurveConfig) (fees : FeeConfig)
    (startTimestamp rate : ℚ) : ℕ → ℕ → SubscriptionState → ℕ → List SimulationResult
  | _, 0, _, _ => []
  | month, Nat.succ k, st, cur =>
      let r := simMonth tier curve fees startTimestamp rate month st cur
      r.2.2 :: simLoop tier curve fees startTimestamp rate (month + 1) k r.1 r.2.1

/-- `simulateScenario` from the source: reset the state, admit the
50-subscriber initial cohort and the test subscriber at
`startTimestamp`, then run the month loop. -/
def simulateScenario (tier : TierConfig) (curve : CurveConfig) (fees : FeeConfig)
    (startTimestamp : ℚ) (months : ℕ) (monthlyGrowthRate testSubscriptionDays : ℚ) :
    List SimulationResult :=
  let st₀ := addInitialFrom tier curve fees startTimestamp 0 INITIAL_SUBSCRIBERS
    getInitialState
  let st₁ := addSubscriber tier curve fees st₀ Addr.test startTimestamp
    testSubscriptionDays
  simLoop tier curve fees startTimestamp monthlyGrowthRate 1 months st₁
    st₁.subscribers.length

/-- Every `subscriber-{i}` key stored in the map has index at most the
map's size (the simulator's naming discipline). -/
def KeysBounded (l : List (Addr × Subscriber)) : Prop :=
  ∀ i, (mapGet (Addr.regular i) l).isSome = true → i ≤ l.length

/-- `newSubs` of one simulated month: `Math.floor(currentSubs * rate)`,
clamped to a loop count. -/
def grow (rate : ℚ) (cur : ℕ) : ℕ := (⌊(cur : ℚ) * rate⌋).toNat

/-- The recurrence the month loop actually follows, emitting the
`subscribers` field of each snapshot: from map size `L` and growth base
`cur`, one month admits `grow rate cur` subscribers and reports the
regular count `L + grow rate cur - 1`, which also becomes the next
month's growth base. -/
def regularTrace (rate : ℚ) : ℕ → ℕ → ℕ → List ℕ
  | _, _, 0 => []
  | L, cur, Nat.succ k =>
      (L + grow rate cur - 1) ::
        regularTrace rate (L + grow rate cur) (L + grow rate cur - 1) k


/-! ### Association-list lemmas for the JS `Map` -/

theorem mapGet_mapSet_self (k : Addr) (v : Subscriber)
    (l : List (Addr × Subscriber)) : mapGet k (mapSet k v l) = some v := by
  induction l with
  | nil => simp [mapSet, mapGet]
  | cons e rest ih =>
      by_cases h : k = e.1
      · simp [mapSet, h, mapGet]
      · simp [mapSet, h, mapGet, ih]

theorem mapGet_mapSet_of_ne (k k₂ : Addr) (v : Subscriber)
    (l : List (Addr × Subscriber)) (h : k ≠ k₂) :
    mapGet k (mapSet k₂ v l) = mapGet k l := by
  induction l with
  | nil => simp [mapSet, mapGet, h]
  | cons e rest ih =>
      by_cases h₂ : k₂ = e.1
      · subst h₂
        simp [mapSet, mapGet, h, Ne.symm h]
      · by_cases h₃ : k = e.1
        · simp [mapSet, mapGet, h₂, h₃]
        · simp [mapSet, mapGet, h₂, h₃, ih]

theorem mapSet_of_get_none (k : Addr) (v : Subscriber)
    (l : List (Addr × Subscriber)) (h : mapGet k l = none) :
    mapSet k v l = l ++ [(k, v)] := by
  induction l with
  | nil => simp [mapSet]
  | cons e rest ih =>
      by_cases h₂ : k = e.1
      · simp [mapGet, h₂] at h
      · simp only [mapGet, h₂, if_neg] at h
        simp [mapSet, h₂, ih h]

theorem mapGet_append_of_none (k : Addr) (l₁ l₂ : List (Addr × Subscriber))
    (h : mapGet k l₁ = none) : mapGet k (l₁ ++ l₂) = mapGet k l₂ := by
  induction l₁ with
  | nil => simp
  | cons e rest ih =>
      by_cases h₂ : k = e.1
      · simp [mapGet, h₂] at h
      · simp only [mapGet, h₂, if_neg] at h
        simp [mapGet, h₂, ih h]

theorem mapGet_mem (k : Addr) (v : Subscriber) (l : List (Addr × Subscriber))
    (h : mapGet k l = some v) : (k, v) ∈ l := by
  induction l with
  | nil => simp [mapGet] at h
  | cons e rest ih =>
      obtain ⟨k₁, v₁⟩ := e
      by_cases h₂ : k = k₁
      · subst h₂
        simp [mapGet] at h
        exact h ▸ List.mem_cons_self _ _
      · simp only [mapGet, if_neg h₂] at h
        exact List.mem_cons_of_mem _ (ih h)

theorem length_mapSet_of_none (k : Addr) (v : Subscriber)
    (l : List (Addr × Subscriber)) (h : mapGet k l = none) :
    (mapSet k v l).length = l.length + 1 := by
  rw [mapSet_of_get_none k v l h]
  simp

theorem length_mapSet_of_some (k : Addr) (v w : Subscriber)
    (l : List (Addr × Subscriber)) (h : mapGet k l = some w) :
    (mapSet k v l).length = l.length := by
  induction l with
  | nil => simp [mapGet] at h
  | cons e rest ih =>
      by_cases h₂ : k = e.1
      · simp [mapSet, h₂]
      · simp only [mapGet, h₂, if_neg] at h
        simp [mapSet, h₂, ih h]

theorem sumShares_append (l₁ l₂ : List (Addr × Subscriber)) :
    sumShares (l₁ ++ l₂) = sumShares l₁ + sumShares l₂ := by
  simp [sumShares]

theorem totalFunds_addSubscriber (tier : TierConfig) (curve : CurveConfig)
    (fees : FeeConfig) (st : SubscriptionState) (a : Addr) (t d : ℚ) :
    totalFunds (addSubscriber tier curve fees st a t d) =
      totalFunds st + payment tier d := by
  simp only [totalFunds, addSubscriber, netPayment]
  ring

/-- C10, core induction: running any list of admissions adds exactly the
sum of the gross payments to the four cumulative totals. -/
theorem totalFunds_runAdds (tier : TierConfig) (curve : CurveConfig)
    (fees : FeeConfig) (reqs : List AddReq) (st : SubscriptionState) :
    totalFunds (runAdds tier curve fees reqs st) =
      totalFunds st + (reqs.map (grossPayment tier)).sum := by
  induction reqs generalizing st with
  | nil => simp [runAdds]
  | cons r rest ih =>
      simp only [runAdds, List.foldl_cons, List.map_cons, List.sum_cons]
      rw [show List.foldl _ _ rest = runAdds tier curve fees rest _ from rfl, ih,
        totalFunds_addSubscriber]
      simp only [grossPayment]
      ring

/-! ### Well-formed configurations and sign lemmas -/

theorem payment_nonneg (tier : TierConfig) (d : ℚ)
    (h₁ : 0 ≤ tier.initialMintPrice) (h₂ : 0 ≤ tier.pricePerPeriod)
    (hd : 0 ≤ d) : 0 ≤ payment tier d := by
  unfold payment subscriptionMonths ONE_MONTH_DAYS
  exact add_nonneg h₁ (mul_nonneg (div_nonneg hd (by norm_num)) h₂)

theorem netPayment_factored (tier : TierConfig) (fees : FeeConfig) (d : ℚ) :
    netPayment tier fees d =
      payment tier d * ((MAX_BPS - fees.protocolBps - fees.clientBps) / MAX_BPS) := by
  simp only [netPayment, protocolFee, clientFee, MAX_BPS]
  ring

theorem netPayment_nonneg (tier : TierConfig) (fees : FeeConfig) (d : ℚ)
    (h₁ : 0 ≤ tier.initialMintPrice) (h₂ : 0 ≤ tier.pricePerPeriod)
    (hd : 0 ≤ d) (hsum : fees.protocolBps + fees.clientBps ≤ MAX_BPS) :
    0 ≤ netPayment tier fees d := by
  rw [netPayment_factored]
  refine mul_nonneg (payment_nonneg tier d h₁ h₂ hd) (div_nonneg ?_ ?_)
  · linarith
  · norm_num [MAX_BPS]

theorem rewardAmount_nonneg (tier : TierConfig) (fees : FeeConfig) (d : ℚ)
    (h₁ : 0 ≤ tier.initialMintPrice) (h₂ : 0 ≤ tier.pricePerPeriod)
    (h₃ : 0 ≤ tier.rewardBasisPoints) (hd : 0 ≤ d)
    (hsum : fees.protocolBps + fees.clientBps ≤ MAX_BPS) :
    0 ≤ rewardAmount tier fees d := by
  unfold rewardAmount
  refine div_nonneg (mul_nonneg ?_ h₃) (by norm_num [MAX_BPS])
  exact netPayment_nonneg tier fees d h₁ h₂ hd hsum

theorem calculateMultiplier_nonneg (curve : CurveConfig) (t : ℚ)
    (hm : 0 ≤ curve.minMultiplier) : 0 ≤ calculateMultiplier curve t := by
  unfold calculateMultiplier
  split
  · exact hm
  · exact le_trans hm (le_max_right _ _)

theorem shares_nonneg (tier : TierConfig) (curve : CurveConfig) (fees : FeeConfig)
    (t d : ℚ)
    (h₁ : 0 ≤ tier.initialMintPrice) (h₂ : 0 ≤ tier.pricePerPeriod)
    (h₃ : 0 ≤ tier.rewardBasisPoints) (hm : 0 ≤ curve.minMultiplier)
    (hd : 0 ≤ d) (hsum : fees.protocolBps + fees.clientBps ≤ MAX_BPS) :
    0 ≤ shares tier curve fees t d := by
  unfold shares subscriptionMonths ONE_MONTH_DAYS
  refine mul_nonneg (mul_nonneg ?_ ?_) ?_
  · exact rewardAmount_nonneg tier fees d h₁ h₂ h₃ hd hsum
  · exact calculateMultiplier_nonneg curve t hm
  · exact div_nonneg (div_nonneg hd (by norm_num)) (by norm_num)

theorem rewardAmount_ne_zero_of_shares_ne_zero (tier : TierConfig)
    (curve : CurveConfig) (fees : FeeConfig) (t d : ℚ)
    (h : shares tier curve fees t d ≠ 0) : rewardAmount tier fees d ≠ 0 := by
  intro h0
  exact h (by simp [shares, h0])

/-! ### The state invariant maintained by admissions -/

theorem stateInv_getInitialState : StateInv getInitialState := by
  refine ⟨le_refl 0, by simp [getInitialState, sumShares], ?_⟩
  intro e he
  simp [getInitialState] at he

theorem stateInv_addSubscriber (tier : TierConfig) (curve : CurveConfig)
    (fees : FeeConfig) (st : SubscriptionState) (a : Addr) (t d : ℚ)
    (hv : ValidCfg tier curve fees) (hd : 0 ≤ d)
    (hsum : fees.protocolBps + fees.clientBps ≤ MAX_BPS)
    (hfresh : mapGet a st.subscribers = none) (hinv : StateInv st) :
    StateInv (addSubscriber tier curve fees st a t d) := by
  obtain ⟨hpool, hshares, hentries⟩ := hinv
  obtain ⟨hrb₀, hrb₁, hmi, hpp, hfb, hmm, hpb₀, hpb₁, hcb₀, hcb₁⟩ := hv
  have hra : 0 ≤ rewardAmount tier fees d :=
    rewardAmount_nonneg tier fees d hmi hpp hrb₀ hd hsum
  have hsh : 0 ≤ shares tier curve fees t d :=
    shares_nonneg tier curve fees t d hmi hpp hrb₀ hmm hd hsum
  have hset := mapSet_of_get_none a
    { tierId := 1
      subscriptionStart := t
      expiresAt := t + subscriptionSeconds d
      rewardShares := shares tier curve fees t d
      totalSpent := payment tier d } st.subscribers hfresh
  refine ⟨?_, ?_, ?_⟩
  · simpa [addSubscriber] using add_nonneg hpool hra
  · simp only [addSubscriber, hset, sumShares_append, hshares]
    simp [sumShares]
  · intro e he
    simp only [addSubscriber, hset] at he ⊢
    rcases List.mem_append.mp he with hmem | hmem
    · refine ⟨(hentries e hmem).1, fun hp => ?_⟩
      have := (hentries e hmem).2 hp
      linarith
    · simp only [List.mem_singleton] at hmem
      subst hmem
      refine ⟨hsh, fun hp => ?_⟩
      have hraPos : 0 < rewardAmount tier fees d := by
        rcases lt_or_eq_of_le hra with h | h
        · exact h
        · exfalso
          apply rewardAmount_ne_zero_of_shares_ne_zero tier curve fees t d
          · exact ne_of_gt hp
          · exact h.symm
      linarith

theorem mapGet_singleton (k k₂ : Addr) (v : Subscriber) :
    mapGet k [(k₂, v)] = if k = k₂ then some v else none := by
  simp [mapGet]

theorem stateInv_runAdds (tier : TierConfig) (curve : CurveConfig)
    (fees : FeeConfig) (reqs : List AddReq) (st : SubscriptionState)
    (hv : ValidCfg tier curve fees)
    (hsum : fees.protocolBps + fees.clientBps ≤ MAX_BPS)
    (hdays : ∀ r ∈ reqs, 0 ≤ r.subscriptionDays)
    (hfresh : ∀ r ∈ reqs, mapGet r.address st.subscribers = none)
    (hdist : reqs.Pairwise (fun r s => r.address ≠ s.address))
    (hinv : StateInv st) :
    StateInv (runAdds tier curve fees reqs st) := by
  induction reqs generalizing st with
  | nil => simpa [runAdds] using hinv
  | cons r rest ih =>
      simp only [runAdds, List.foldl_cons]
      rw [show List.foldl _ _ rest = runAdds tier curve fees rest _ from rfl]
      have hstep := stateInv_addSubscriber tier curve fees st r.address r.timestamp
        r.subscriptionDays hv (hdays r (List.mem_cons_self r rest)) hsum
        (hfresh r (List.mem_cons_self r rest)) hinv
      have hset := mapSet_of_get_none r.address
        { tierId := 1
          subscriptionStart := r.timestamp
          expiresAt := r.timestamp + subscriptionSeconds r.subscriptionDays
          rewardShares := shares tier curve fees r.timestamp r.subscriptionDays
          totalSpent := payment tier r.subscriptionDays } st.subscribers
        (hfresh r (List.mem_cons_self r rest))
      refine ih _ (fun s hs => hdays s (List.mem_cons_of_mem r hs)) ?_
        (List.Pairwise.of_cons hdist) hstep
      intro s hs
      have hs₁ : mapGet s.address st.subscribers = none :=
        hfresh s (List.mem_cons_of_mem r hs)
      have hs₂ : s.address ≠ r.address :=
        fun h => (List.pairwise_cons.mp hdist).1 s hs h.symm
      simp only [addSubscriber, hset]
      rw [mapGet_append_of_none s.address st.subscribers _ hs₁, mapGet_singleton,
        if_neg hs₂]

theorem rewardPool_runAdds (tier : TierConfig) (curve : CurveConfig)
    (fees : FeeConfig) (reqs : List AddReq) (st : SubscriptionState) :
    (runAdds tier curve fees reqs st).rewardPool =
      st.rewardPool + (reqs.map fun r => rewardAmount tier fees r.subscriptionDays).sum := by
  induction reqs generalizing st with
  | nil => simp [runAdds]
  | cons r rest ih =>
      simp only [runAdds, List.foldl_cons, List.map_cons, List.sum_cons]
      rw [show List.foldl _ _ rest = runAdds tier curve fees rest _ from rfl, ih]
      simp only [addSubscriber]
      ring

theorem totalShares_runAdds (tier : TierConfig) (curve : CurveConfig)
    (fees : FeeConfig) (reqs : List AddReq) (st : SubscriptionState) :
    (runAdds tier curve fees reqs st).totalShares =
      st.totalShares +
        (reqs.map fun r => shares tier curve fees r.timestamp r.subscriptionDays).sum := by
  induction reqs generalizing st with
  | nil => simp [runAdds]
  | cons r rest ih =>
      simp only [runAdds, List.foldl_cons, List.map_cons, List.sum_cons]
      rw [show List.foldl _ _ rest = runAdds tier curve fees rest _ from rfl, ih]
      simp only [addSubscriber]
      ring

theorem runAdds_append (tier : TierConfig) (curve : CurveConfig) (fees : FeeConfig)
    (l₁ l₂ : List AddReq) (st : SubscriptionState) :
    runAdds tier curve fees (l₁ ++ l₂) st =
      runAdds tier curve fees l₂ (runAdds tier curve fees l₁ st) := by
  simp [runAdds, List.foldl_append]

/-- **C5, amended.**  For admissions with pairwise-distinct addresses
under a configuration with basis points in `[0, 10000]`, non-negative
prices, `formulaBase > 1`, `minMultiplier ≥ 0`, non-negative
`subscriptionDays`, **and `protocolBps + clientBps ≤ 10000`** (without
this extra hypothesis the fee split can exceed the payment and the pool
shrinks): after every call — i.e. after any prefix `pre` of the call
sequence — `totalShares` equals the sum of the stored `rewardShares`,
`rewardPool` equals the sum of the admitted `rewardAmount`s, and both
are non-decreasing from the prefix to the full sequence. -/
theorem admission_invariants (tier : TierConfig) (curve : CurveConfig)
    (fees : FeeConfig) (reqs pre suf : List AddReq)
    (hv : ValidCfg tier curve fees)
    (hfs : fees.protocolBps + fees.clientBps ≤ MAX_BPS)
    (hdays : ∀ r ∈ reqs, 0 ≤ r.subscriptionDays)
    (hdist : reqs.Pairwise fun r s => r.address ≠ s.address)
    (hsplit : reqs = pre ++ suf) :
    (runAdds tier curve fees pre getInitialState).totalShares =
        sumShares (runAdds tier curve fees pre getInitialState).subscribers ∧
    (runAdds tier curve fees pre getInitialState).rewardPool =
        (pre.map fun r => rewardAmount tier fees r.subscriptionDays).sum ∧
    (runAdds tier curve fees pre getInitialState).totalShares ≤
        (runAdds tier curve fees reqs getInitialState).totalShares ∧
    (runAdds tier curve fees pre getInitialState).rewardPool ≤
        (runAdds tier curve fees reqs getInitialState).rewardPool := by
  obtain ⟨hrb₀, hrb₁, hmi, hpp, hfb, hmm, hpb₀, hpb₁, hcb₀, hcb₁⟩ := hv
  have hpre : pre.Sublist reqs := hsplit ▸ List.sublist_append_left pre suf
  have hdays₂ : ∀ r ∈ pre, 0 ≤ r.subscriptionDays :=
    fun r hr => hdays r (hpre.mem hr)
  have hdays₃ : ∀ r ∈ suf, 0 ≤ r.subscriptionDays :=
    fun r hr => hdays r (hsplit ▸ List.mem_append_right pre hr)
  have hinv := stateInv_runAdds tier curve fees pre getInitialState
    ⟨hrb₀, hrb₁, hmi, hpp, hfb, hmm, hpb₀, hpb₁, hcb₀, hcb₁⟩ hfs hdays₂
    (fun r _ => by simp [getInitialState, mapGet]) (hdist.sublist hpre)
    stateInv_getInitialState
  refine ⟨hinv.2.1, ?_, ?_, ?_⟩
  · rw [rewardPool_runAdds]
    simp [getInitialState]
  · rw [hsplit, runAdds_append, totalShares_runAdds tier curve fees suf]
    have h : 0 ≤ (suf.map fun r =>
        shares tier curve fees r.timestamp r.subscriptionDays).sum := by
      refine List.sum_nonneg ?_
      intro x hx
      obtain ⟨r, hr, rfl⟩ := List.mem_map.mp hx
      exact shares_nonneg tier curve fees r.timestamp r.subscriptionDays
        hmi hpp hrb₀ hmm (hdays₃ r hr) hfs
    linarith
  · rw [hsplit, runAdds_append, rewardPool_runAdds tier curve fees suf]
    have h : 0 ≤ (suf.map fun r => rewardAmount tier fees r.subscriptionDays).sum := by
      refine List.sum_nonneg ?_
      intro x hx
      obtain ⟨r, hr, rfl⟩ := List.mem_map.mp hx
      exact rewardAmount_nonneg tier fees r.subscriptionDays hmi hpp hrb₀
        (hdays₃ r hr) hfs
    linarith

/-- Witness for `admission_invariants`: the repository's own tier and
fee parameters, the decay curve anchored at `0`, and a single 360-day
admission, with the empty prefix. -/
theorem admission_invariants_witness :
    (runAdds { rewardBasisPoints := 2000, initialMintPrice := 0, pricePerPeriod := 5 }
        { numPeriods := 60, formulaBase := 6/5, startTimestamp := 0, minMultiplier := 0 }
        { protocolBps := 100, clientBps := 500 }
        [] getInitialState).totalShares =
      sumShares (runAdds
        { rewardBasisPoints := 2000, initialMintPrice := 0, pricePerPeriod := 5 }
        { numPeriods := 60, formulaBase := 6/5, startTimestamp := 0, minMultiplier := 0 }
        { protocolBps := 100, clientBps := 500 }
        [] getInitialState).subscribers ∧
    (runAdds { rewardBasisPoints := 2000, initialMintPrice := 0, pricePerPeriod := 5 }
        { numPeriods := 60, formulaBase := 6/5, startTimestamp := 0, minMultiplier := 0 }
        { protocolBps := 100, clientBps := 500 }
        [] getInitialState).rewardPool =
      (([] : List AddReq).map fun r =>
        rewardAmount { rewardBasisPoints := 2000, initialMintPrice := 0, pricePerPeriod := 5 }
          { protocolBps := 100, clientBps := 500 } r.subscriptionDays).sum ∧
    (runAdds { rewardBasisPoints := 2000, initialMintPrice := 0, pricePerPeriod := 5 }
        { numPeriods := 60, formulaBase := 6/5, startTimestamp := 0, minMultiplier := 0 }
        { protocolBps := 100, clientBps := 500 }
        [] getInitialState).totalShares ≤
      (runAdds { rewardBasisPoints := 2000, initialMintPrice := 0, pricePerPeriod := 5 }
        { numPeriods := 60, formulaBase := 6/5, startTimestamp := 0, minMultiplier := 0 }
        { protocolBps := 100, clientBps := 500 }
        [⟨Addr.regular 1, 0, 360⟩] getInitialState).totalShares ∧
    (runAdds { rewardBasisPoints := 2000, initialMintPrice := 0, pricePerPeriod := 5 }
        { numPeriods := 60, formulaBase := 6/5, startTimestamp := 0, minMultiplier := 0 }
        { protocolBps := 100, clientBps := 500 }
        [] getInitialState).rewardPool ≤
      (runAdds { rewardBasisPoints := 2000, initialMintPrice := 0, pricePerPeriod := 5 }
        { numPeriods := 60, formulaBase := 6/5, startTimestamp := 0, minMultiplier := 0 }
        { protocolBps := 100, clientBps := 500 }
        [⟨Addr.regular 1, 0, 360⟩] getInitialState).rewardPool := by
  refine admission_invariants _ _ _ [⟨Addr.regular 1, 0, 360⟩] [] [⟨Addr.regular 1, 0, 360⟩]
    ?_ ?_ ?_ ?_ rfl
  · refine ⟨?_, ?_, ?_, ?_, ?_, ?_, ?_, ?_, ?_, ?_⟩ <;> norm_num [MAX_BPS]
  · norm_num [MAX_BPS]
  · intro r hr
    simp only [List.mem_singleton] at hr
    subst hr
    norm_num
  · simp

/-- **C5, counterexample.**  With `protocolBps = clientBps = 10000`
(each inside `[0, 10000]`), non-negative prices, `formulaBase = 2 > 1`,
`minMultiplier = 0` and a single admission with `subscriptionDays = 30 ≥ 0`,
the fees exceed the payment: `rewardPool` drops from `0` to `-1`, so it
is not non-decreasing and the claim as stated fails. -/
theorem admission_invariants_counterexample :
    ValidCfg { rewardBasisPoints := 2000, initialMintPrice := 0, pricePerPeriod := 5 }
      { numPeriods := 1, formulaBase := 2, startTimestamp := 0, minMultiplier := 0 }
      { protocolBps := 10000, clientBps := 10000 } ∧
    (0 : ℚ) ≤ 30 ∧
    (runAdds { rewardBasisPoints := 2000, initialMintPrice := 0, pricePerPeriod := 5 }
        { numPeriods := 1, formulaBase := 2, startTimestamp := 0, minMultiplier := 0 }
        { protocolBps := 10000, clientBps := 10000 }
        [⟨Addr.regular 1, 0, 30⟩] getInitialState).rewardPool = -1 ∧
    ¬ getInitialState.rewardPool ≤
        (runAdds { rewardBasisPoints := 2000, initialMintPrice := 0, pricePerPeriod := 5 }
          { numPeriods := 1, formulaBase := 2, startTimestamp := 0, minMultiplier := 0 }
          { protocolBps := 10000, clientBps := 10000 }
          [⟨Addr.regular 1, 0, 30⟩] getInitialState).rewardPool := by
  have hpool :
      (runAdds { rewardBasisPoints := 2000, initialMintPrice := 0, pricePerPeriod := 5 }
        { numPeriods := 1, formulaBase := 2, startTimestamp := 0, minMultiplier := 0 }
        { protocolBps := 10000, clientBps := 10000 }
        [⟨Addr.regular 1, 0, 30⟩] getInitialState).rewardPool = -1 := by
    simp only [runAdds, List.foldl_cons, List.foldl_nil, addSubscriber, rewardAmount,
      netPayment, protocolFee, clientFee, payment, subscriptionMonths, ONE_MONTH_DAYS,
      MAX_BPS, getInitialState]
    norm_num
  refine ⟨?_, by norm_num, hpool, ?_⟩
  · refine ⟨?_, ?_, ?_, ?_, ?_, ?_, ?_, ?_, ?_, ?_⟩ <;> norm_num [MAX_BPS]
  · rw [hpool]
    simp only [getInitialState]
    norm_num

theorem sumShares_nonneg (l : List (Addr × Subscriber))
    (h : ∀ e ∈ l, 0 ≤ e.2.rewardShares) : 0 ≤ sumShares l := by
  refine List.sum_nonneg ?_
  intro x hx
  obtain ⟨e, he, rfl⟩ := List.mem_map.mp hx
  exact h e he

theorem le_sumShares (k : Addr) (v : Subscriber) (l : List (Addr × Subscriber))
    (hmem : (k, v) ∈ l) (h : ∀ e ∈ l, 0 ≤ e.2.rewardShares) :
    v.rewardShares ≤ sumShares l := by
  induction l with
  | nil => simp at hmem
  | cons e rest ih =>
      simp only [sumShares, List.map_cons, List.sum_cons]
      rcases List.mem_cons.mp hmem with heq | hmem₂
      · have hrest : 0 ≤ sumShares rest :=
          sumShares_nonneg rest (fun x hx => h x (List.mem_cons_of_mem e hx))
        rw [← heq]
        simp only [sumShares] at hrest
        linarith
      · have he : 0 ≤ e.2.rewardShares := h e (List.mem_cons_self e rest)
        have := ih hmem₂ (fun x hx => h x (List.mem_cons_of_mem e hx))
        simp only [sumShares] at this
        linarith

/-! ### C4: when `calculateRewards` returns zero -/

/-- **C4.**  In any state reached by a sequence of well-formed admissions
with pairwise-distinct addresses, `calculateRewards(address, t)` returns
`0` exactly when the address is unknown or `t` precedes the subscriber's
`subscriptionStart` (given positive frozen shares); for any `t` at or
after the start — with no check whatsoever against `expiresAt`, hence
also after expiry — it returns
`rewardPool * (rewardShares / totalShares)`. -/
theorem calculateRewards_zero_iff (tier : TierConfig) (curve : CurveConfig)
    (fees : FeeConfig) (reqs : List AddReq)
    (hv : ValidCfg tier curve fees)
    (hfs : fees.protocolBps + fees.clientBps ≤ MAX_BPS)
    (hdays : ∀ r ∈ reqs, 0 ≤ r.subscriptionDays)
    (hdist : reqs.Pairwise fun r s => r.address ≠ s.address)
    (addr : Addr) (t : ℚ) :
    (mapGet addr (runAdds tier curve fees reqs getInitialState).subscribers = none →
        calculateRewards (runAdds tier curve fees reqs getInitialState) addr t = 0) ∧
    (∀ sub,
      mapGet addr (runAdds tier curve fees reqs getInitialState).subscribers = some sub →
        ((0 < sub.rewardShares →
            (calculateRewards (runAdds tier curve fees reqs getInitialState) addr t = 0 ↔
              t < sub.subscriptionStart)) ∧
         (sub.subscriptionStart ≤ t →
            calculateRewards (runAdds tier curve fees reqs getInitialState) addr t =
              (runAdds tier curve fees reqs getInitialState).rewardPool *
                (sub.rewardShares /
                  (runAdds tier curve fees reqs getInitialState).totalShares)))) := by
  have hinv := stateInv_runAdds tier curve fees reqs getInitialState hv hfs hdays
    (fun r _ => by simp [getInitialState, mapGet]) hdist stateInv_getInitialState
  obtain ⟨hpool, hshares, hentries⟩ := hinv
  constructor
  · intro hnone
    simp [calculateRewards, hnone]
  · intro sub hget
    have hmem : (addr, sub) ∈ (runAdds tier curve fees reqs getInitialState).subscribers :=
      mapGet_mem addr sub _ hget
    constructor
    · intro hpos
      constructor
      · intro h0
        by_contra hlt
        push_neg at hlt
        have hpoolPos : 0 < (runAdds tier curve fees reqs getInitialState).rewardPool :=
          (hentries _ hmem).2 hpos
        have htotPos : 0 < (runAdds tier curve fees reqs getInitialState).totalShares := by
          rw [hshares]
          calc (0 : ℚ) < sub.rewardShares := hpos
            _ ≤ _ := le_sumShares addr sub _ hmem (fun e he => (hentries e he).1)
        have hval : calculateRewards (runAdds tier curve fees reqs getInitialState)
            addr t =
            (runAdds tier curve fees reqs getInitialState).rewardPool *
              (sub.rewardShares /
                (runAdds tier curve fees reqs getInitialState).totalShares) := by
          simp [calculateRewards, hget, not_lt.mpr hlt]
        rw [hval] at h0
        have : 0 < (runAdds tier curve fees reqs getInitialState).rewardPool *
            (sub.rewardShares /
              (runAdds tier curve fees reqs getInitialState).totalShares) :=
          mul_pos hpoolPos (div_pos hpos htotPos)
        linarith
      · intro hlt
        simp [calculateRewards, hget, hlt]
    · intro hle
      simp [calculateRewards, hget, not_lt.mpr hle]

/-- Witness for `calculateRewards_zero_iff`: one 360-day admission under
tier `{10000, 12, 0}` with zero fees at curve start `0`; querying one
second before the start returns `0` by the theorem's equivalence. -/
theorem calculateRewards_zero_iff_witness :
    calculateRewards
      (runAdds { rewardBasisPoints := 10000, initialMintPrice := 12, pricePerPeriod := 0 }
        { numPeriods := 1, formulaBase := 2, startTimestamp := 0, minMultiplier := 0 }
        { protocolBps := 0, clientBps := 0 }
        [⟨Addr.regular 1, 0, 360⟩] getInitialState)
      (Addr.regular 1) (-1) = 0 := by
  have happ := calculateRewards_zero_iff
    { rewardBasisPoints := 10000, initialMintPrice := 12, pricePerPeriod := 0 }
    { numPeriods := 1, formulaBase := 2, startTimestamp := 0, minMultiplier := 0 }
    { protocolBps := 0, clientBps := 0 }
    [⟨Addr.regular 1, 0, 360⟩]
    (by refine ⟨?_, ?_, ?_, ?_, ?_, ?_, ?_, ?_, ?_, ?_⟩ <;> norm_num [MAX_BPS])
    (by norm_num [MAX_BPS])
    (by intro r hr; simp only [List.mem_singleton] at hr; subst hr; norm_num)
    (by simp)
    (Addr.regular 1) (-1)
  have hget : mapGet (Addr.regular 1)
      (runAdds { rewardBasisPoints := 10000, initialMintPrice := 12, pricePerPeriod := 0 }
        { numPeriods := 1, formulaBase := 2, startTimestamp := 0, minMultiplier := 0 }
        { protocolBps := 0, clientBps := 0 }
        [⟨Addr.regular 1, 0, 360⟩] getInitialState).subscribers =
      some
        { tierId := 1
          subscriptionStart := 0
          expiresAt := 0 + subscriptionSeconds 360
          rewardShares := shares
            { rewardBasisPoints := 10000, initialMintPrice := 12, pricePerPeriod := 0 }
            { numPeriods := 1, formulaBase := 2, startTimestamp := 0, minMultiplier := 0 }
            { protocolBps := 0, clientBps := 0 } 0 360
          totalSpent := payment
            { rewardBasisPoints := 10000, initialMintPrice := 12, pricePerPeriod := 0 }
            360 } := by
    simp [runAdds, addSubscriber, getInitialState, mapSet, mapGet]
  have hpos : (0 : ℚ) < shares
      { rewardBasisPoints := 10000, initialMintPrice := 12, pricePerPeriod := 0 }
      { numPeriods := 1, formulaBase := 2, startTimestamp := 0, minMultiplier := 0 }
      { protocolBps := 0, clientBps := 0 } 0 360 := by
    have hmult : calculateMultiplier
        { numPeriods := 1, formulaBase := 2, startTimestamp := 0, minMultiplier := 0 }
        0 = 2 := by
      simp only [calculateMultiplier, periodsElapsed, ONE_MONTH_SECONDS, ONE_MONTH_DAYS]
      norm_num
    simp only [shares, rewardAmount, netPayment, protocolFee, clientFee, payment,
      subscriptionMonths, ONE_MONTH_DAYS, MAX_BPS, hmult]
    norm_num
  exact ((happ.2 _ hget).1 hpos).mpr (by norm_num)

/-- **C2, amended.**  The claimed factor between a 720-day and a 360-day
admission is not 2 in general: `shares = rewardAmount * multiplier *
(subscriptionMonths / 12)` and `rewardAmount` itself grows with the
subscription length.  What holds for every configuration and timestamp is
that the shares *per unit of rewardAmount* double:
`shares₇₂₀ * rewardAmount₃₆₀ = 2 * (shares₃₆₀ * rewardAmount₇₂₀)`. -/
theorem shares_double_per_rewardAmount (tier : TierConfig) (curve : CurveConfig)
    (fees : FeeConfig) (t : ℚ) :
    shares tier curve fees t 720 * rewardAmount tier fees 360 =
      2 * (shares tier curve fees t 360 * rewardAmount tier fees 720) := by
  simp only [shares, rewardAmount, netPayment, protocolFee, clientFee, payment,
    subscriptionMonths, ONE_MONTH_DAYS, MAX_BPS]
  ring

/-- **C2, counterexample.**  With tier `{rewardBasisPoints := 2000,
initialMintPrice := 0, pricePerPeriod := 5}`, zero fees, curve
`{numPeriods := 1, formulaBase := 2, startTimestamp := 0,
minMultiplier := 0}` and both admissions at `t = 0`, the 720-day
subscriber stores 96 reward shares while the 360-day subscriber stores
24: the ratio is 4, not 2. -/
theorem shares_double_counterexample :
    (mapGet (Addr.regular 1)
        (addSubscriber
          { rewardBasisPoints := 2000, initialMintPrice := 0, pricePerPeriod := 5 }
          { numPeriods := 1, formulaBase := 2, startTimestamp := 0, minMultiplier := 0 }
          { protocolBps := 0, clientBps := 0 }
          getInitialState (Addr.regular 1) 0 720).subscribers).map
        Subscriber.rewardShares = some 96 ∧
    (mapGet (Addr.regular 2)
        (addSubscriber
          { rewardBasisPoints := 2000, initialMintPrice := 0, pricePerPeriod := 5 }
          { numPeriods := 1, formulaBase := 2, startTimestamp := 0, minMultiplier := 0 }
          { protocolBps := 0, clientBps := 0 }
          getInitialState (Addr.regular 2) 0 360).subscribers).map
        Subscriber.rewardShares = some 24 ∧
    (96 : ℚ) ≠ 2 * 24 := by
  have hmult :
      calculateMultiplier
        { numPeriods := 1, formulaBase := 2, startTimestamp := 0, minMultiplier := 0 }
        0 = 2 := by
    simp only [calculateMultiplier, periodsElapsed, ONE_MONTH_SECONDS, ONE_MONTH_DAYS]
    norm_num
  refine ⟨?_, ?_, by norm_num⟩ <;>
  · simp only [addSubscriber, mapGet_mapSet_self, Option.map_some, shares, hmult,
      rewardAmount, netPayment, protocolFee, clientFee, payment, subscriptionMonths,
      ONE_MONTH_DAYS, MAX_BPS]
    norm_num

/-! ### C6: multiplier boundary behaviour -/

theorem periodsElapsed_at_period (curve : CurveConfig) (k : ℤ) :
    periodsElapsed curve (curve.startTimestamp + (k : ℚ) * ONE_MONTH_SECONDS) = k := by
  unfold periodsElapsed
  rw [show curve.startTimestamp + (k : ℚ) * ONE_MONTH_SECONDS - curve.startTimestamp =
    (k : ℚ) * ONE_MONTH_SECONDS by ring]
  rw [mul_div_cancel_right₀ _ (by norm_num [ONE_MONTH_SECONDS, ONE_MONTH_DAYS] :
    ONE_MONTH_SECONDS ≠ (0 : ℚ))]
  exact Int.floor_intCast k

/-- **C6.**  Exactly at the curve horizon
(`startTimestamp + numPeriods * secondsPerMonth`) the multiplier is
`minMultiplier`; one period earlier it is `formulaBase ^ 1` provided
`formulaBase ^ 1 ≥ minMultiplier`; and in general the result is
`minMultiplier` once `periodsElapsed ≥ numPeriods` and
`max(formulaBase ^ (numPeriods - periodsElapsed), minMultiplier)`
before that. -/
theorem calculateMultiplier_boundary (curve : CurveConfig)
    (hclamp : curve.minMultiplier ≤ curve.formulaBase ^ (1 : ℤ)) :
    calculateMultiplier curve
        (curve.startTimestamp + (curve.numPeriods : ℚ) * ONE_MONTH_SECONDS) =
      curve.minMultiplier ∧
    calculateMultiplier curve
        (curve.startTimestamp + ((curve.numPeriods - 1 : ℤ) : ℚ) * ONE_MONTH_SECONDS) =
      curve.formulaBase ^ (1 : ℤ) ∧
    ∀ t : ℚ, calculateMultiplier curve t =
      if curve.numPeriods ≤ periodsElapsed curve t then curve.minMultiplier
      else max (curve.formulaBase ^ (curve.numPeriods - periodsElapsed curve t))
        curve.minMultiplier := by
  refine ⟨?_, ?_, fun t => rfl⟩
  · unfold calculateMultiplier
    rw [periodsElapsed_at_period]
    simp
  · unfold calculateMultiplier
    rw [periodsElapsed_at_period]
    rw [if_neg (by omega)]
    rw [show curve.numPeriods - (curve.numPeriods - 1) = (1 : ℤ) by ring]
    exact max_eq_left hclamp

/-- Witness for `calculateMultiplier_boundary`: the repository's curve
(`numPeriods = 60`, `formulaBase = 1.2`, `minMultiplier = 0`) anchored
at `0`. -/
theorem calculateMultiplier_boundary_witness :
    calculateMultiplier
        { numPeriods := 60, formulaBase := 6/5, startTimestamp := 0, minMultiplier := 0 }
        ((0 : ℚ) + ((60 : ℤ) : ℚ) * ONE_MONTH_SECONDS) = 0 ∧
    calculateMultiplier
        { numPeriods := 60, formulaBase := 6/5, startTimestamp := 0, minMultiplier := 0 }
        ((0 : ℚ) + (((60 : ℤ) - 1 : ℤ) : ℚ) * ONE_MONTH_SECONDS) = (6/5 : ℚ) ^ (1 : ℤ) := by
  have h := calculateMultiplier_boundary
    { numPeriods := 60, formulaBase := 6/5, startTimestamp := 0, minMultiplier := 0 }
    (by rw [zpow_one]; norm_num)
  exact ⟨h.1, h.2.1⟩

/-! ### C7: return-on-investment query -/

/-- **C7.**  `calculateROI` returns the all-zero record for an unknown
address; for a known address with non-zero `totalSpent` it returns
`roi = (calculateRewards / totalSpent - 1) * 100`, `spent = totalSpent`
and `rewards = calculateRewards`; and when the computed rewards equal
`totalSpent` the `roi` is `0`. -/
theorem calculateROI_spec (st : SubscriptionState) (addr : Addr) (t : ℚ) :
    (mapGet addr st.subscribers = none →
      calculateROI st addr t = { roi := 0, spent := 0, rewards := 0 }) ∧
    (∀ sub, mapGet addr st.subscribers = some sub → sub.totalSpent ≠ 0 →
      (calculateROI st addr t =
        { roi := (calculateRewards st addr t / sub.totalSpent - 1) * 100
          spent := sub.totalSpent
          rewards := calculateRewards st addr t } ∧
       (calculateRewards st addr t = sub.totalSpent →
          (calculateROI st addr t).roi = 0))) := by
  constructor
  · intro hnone
    simp [calculateROI, hnone]
  · intro sub hget hne
    constructor
    · simp [calculateROI, hget]
    · intro heq
      simp only [calculateROI, hget, heq]
      rw [div_self hne]
      ring

/-- Witness for `calculateROI_spec`: in `roiExampleState` the computed
rewards equal the amount spent, so the ROI is `0`. -/
theorem calculateROI_spec_witness :
    (calculateROI roiExampleState (Addr.regular 1) 0).roi = 0 := by
  have hget : mapGet (Addr.regular 1) roiExampleState.subscribers =
      some { tierId := 1, subscriptionStart := 0, expiresAt := 0,
             rewardShares := 1, totalSpent := 5 } := by
    simp [roiExampleState, mapGet]
  have hrew : calculateRewards roiExampleState (Addr.regular 1) 0 = 5 := by
    unfold calculateRewards
    rw [hget]
    norm_num [roiExampleState]
  exact ((calculateROI_spec _ (Addr.regular 1) 0).2 _ hget (by norm_num)).2 hrew

/-! ### C1: the worked example of the spec -/

/-- **C1.**  With the repository's tier `{2000, 0, 5}`, fees
`{100, 500}` and curve `{numPeriods := 60, formulaBase := 1.2,
minMultiplier := 0}`, a single subscriber admitted for 360 days at the
curve start yields `payment = 60`, `protocolFee = 0.6`, `clientFee = 3`,
`netPayment = 56.4`, `rewardAmount = 11.28`, `multiplier = 1.2^60` and
`shares = 11.28 * 1.2^60`; being the only subscriber, `calculateRewards`
at every `t ≥ start` returns exactly the `rewardPool = 11.28`. -/
theorem worked_example (start t : ℚ) (ht : start ≤ t) :
    payment { rewardBasisPoints := 2000, initialMintPrice := 0, pricePerPeriod := 5 }
        360 = 60 ∧
    protocolFee { rewardBasisPoints := 2000, initialMintPrice := 0, pricePerPeriod := 5 }
        { protocolBps := 100, clientBps := 500 } 360 = 3/5 ∧
    clientFee { rewardBasisPoints := 2000, initialMintPrice := 0, pricePerPeriod := 5 }
        { protocolBps := 100, clientBps := 500 } 360 = 3 ∧
    netPayment { rewardBasisPoints := 2000, initialMintPrice := 0, pricePerPeriod := 5 }
        { protocolBps := 100, clientBps := 500 } 360 = 282/5 ∧
    rewardAmount { rewardBasisPoints := 2000, initialMintPrice := 0, pricePerPeriod := 5 }
        { protocolBps := 100, clientBps := 500 } 360 = 282/25 ∧
    calculateMultiplier
        { numPeriods := 60, formulaBase := 6/5, startTimestamp := start, minMultiplier := 0 }
        start = (6/5 : ℚ) ^ (60 : ℤ) ∧
    shares { rewardBasisPoints := 2000, initialMintPrice := 0, pricePerPeriod := 5 }
        { numPeriods := 60, formulaBase := 6/5, startTimestamp := start, minMultiplier := 0 }
        { protocolBps := 100, clientBps := 500 } start 360 =
      282/25 * (6/5 : ℚ) ^ (60 : ℤ) ∧
    (addSubscriber { rewardBasisPoints := 2000, initialMintPrice := 0, pricePerPeriod := 5 }
        { numPeriods := 60, formulaBase := 6/5, startTimestamp := start, minMultiplier := 0 }
        { protocolBps := 100, clientBps := 500 }
        getInitialState (Addr.regular 1) start 360).rewardPool = 282/25 ∧
    calculateRewards
        (addSubscriber { rewardBasisPoints := 2000, initialMintPrice := 0, pricePerPeriod := 5 }
          { numPeriods := 60, formulaBase := 6/5, startTimestamp := start, minMultiplier := 0 }
          { protocolBps := 100, clientBps := 500 }
          getInitialState (Addr.regular 1) start 360)
        (Addr.regular 1) t = 282/25 := by
  have hpe : periodsElapsed
      { numPeriods := 60, formulaBase := 6/5, startTimestamp := start, minMultiplier := 0 }
      start = 0 := by
    simp [periodsElapsed, sub_self]
  have hmult : calculateMultiplier
      { numPeriods := 60, formulaBase := 6/5, startTimestamp := start, minMultiplier := 0 }
      start = (6/5 : ℚ) ^ (60 : ℤ) := by
    unfold calculateMultiplier
    rw [hpe, if_neg (by norm_num)]
    rw [show (60 : ℤ) - 0 = 60 by ring]
    exact max_eq_left (zpow_nonneg (by norm_num) 60)
  have hra : rewardAmount
      { rewardBasisPoints := 2000, initialMintPrice := 0, pricePerPeriod := 5 }
      { protocolBps := 100, clientBps := 500 } 360 = 282/25 := by
    simp only [rewardAmount, netPayment, protocolFee, clientFee, payment,
      subscriptionMonths, ONE_MONTH_DAYS, MAX_BPS]
    norm_num
  have hsh : shares { rewardBasisPoints := 2000, initialMintPrice := 0, pricePerPeriod := 5 }
      { numPeriods := 60, formulaBase := 6/5, startTimestamp := start, minMultiplier := 0 }
      { protocolBps := 100, clientBps := 500 } start 360 =
      282/25 * (6/5 : ℚ) ^ (60 : ℤ) := by
    simp only [shares, hra, hmult, subscriptionMonths, ONE_MONTH_DAYS]
    norm_num
  have hshne : shares { rewardBasisPoints := 2000, initialMintPrice := 0, pricePerPeriod := 5 }
      { numPeriods := 60, formulaBase := 6/5, startTimestamp := start, minMultiplier := 0 }
      { protocolBps := 100, clientBps := 500 } start 360 ≠ 0 := by
    rw [hsh]
    exact ne_of_gt (mul_pos (by norm_num) (zpow_pos (by norm_num) 60))
  refine ⟨?_, ?_, ?_, ?_, hra, hmult, hsh, ?_, ?_⟩
  · simp only [payment, subscriptionMonths, ONE_MONTH_DAYS]
    norm_num
  · simp only [protocolFee, payment, subscriptionMonths, ONE_MONTH_DAYS, MAX_BPS]
    norm_num
  · simp only [clientFee, payment, subscriptionMonths, ONE_MONTH_DAYS, MAX_BPS]
    norm_num
  · simp only [netPayment, protocolFee, clientFee, payment, subscriptionMonths,
      ONE_MONTH_DAYS, MAX_BPS]
    norm_num
  · simp only [addSubscriber, getInitialState, hra]
    norm_num
  · have hget : mapGet (Addr.regular 1)
        (addSubscriber { rewardBasisPoints := 2000, initialMintPrice := 0, pricePerPeriod := 5 }
          { numPeriods := 60, formulaBase := 6/5, startTimestamp := start, minMultiplier := 0 }
          { protocolBps := 100, clientBps := 500 }
          getInitialState (Addr.regular 1) start 360).subscribers =
        some { tierId := 1
               subscriptionStart := start
               expiresAt := start + subscriptionSeconds 360
               rewardShares := shares
                 { rewardBasisPoints := 2000, initialMintPrice := 0, pricePerPeriod := 5 }
                 { numPeriods := 60, formulaBase := 6/5, startTimestamp := start,
                   minMultiplier := 0 }
                 { protocolBps := 100, clientBps := 500 } start 360
               totalSpent := payment
                 { rewardBasisPoints := 2000, initialMintPrice := 0, pricePerPeriod := 5 }
                 360 } := by
      simp [addSubscriber, getInitialState, mapSet, mapGet]
    unfold calculateRewards
    rw [hget]
    simp only [addSubscriber, getInitialState]
    rw [if_neg (not_lt.mpr ht)]
    rw [zero_add, zero_add, div_self hshne, mul_one, hra]

/-- Witness for `worked_example`: the curve anchored at `0` and the
query at the admission instant itself. -/
theorem worked_example_witness :
    calculateRewards
        (addSubscriber { rewardBasisPoints := 2000, initialMintPrice := 0, pricePerPeriod := 5 }
          { numPeriods := 60, formulaBase := 6/5, startTimestamp := 0, minMultiplier := 0 }
          { protocolBps := 100, clientBps := 500 }
          getInitialState (Addr.regular 1) 0 360)
        (Addr.regular 1) 0 = 282/25 :=
  (worked_example 0 0 (le_refl 0)).2.2.2.2.2.2.2.2

/-! ### C8: duplicate admission double-counts the totals -/

theorem mapSet_append_of_none (k : Addr) (v : Subscriber)
    (l₁ l₂ : List (Addr × Subscriber)) (h : mapGet k l₁ = none) :
    mapSet k v (l₁ ++ l₂) = l₁ ++ mapSet k v l₂ := by
  induction l₁ with
  | nil => simp
  | cons e rest ih =>
      by_cases h₂ : k = e.1
      · simp [mapGet, h₂] at h
      · simp only [mapGet, h₂, if_neg] at h
        simp [mapSet, h₂, ih h]

/-- **C8.**  Admitting the same (previously fresh) address twice keeps
the map size unchanged, stores the second admission's record, increments
all five cumulative totals by both admissions' contributions, and — if
the state satisfied the share invariant and the first admission's shares
were nonzero — leaves `totalShares` different from the sum of the stored
`rewardShares`. -/
theorem duplicate_admission (tier : TierConfig) (curve : CurveConfig)
    (fees : FeeConfig) (st : SubscriptionState) (a : Addr) (t₁ d₁ t₂ d₂ : ℚ)
    (hfresh : mapGet a st.subscribers = none) :
    (addSubscriber tier curve fees
        (addSubscriber tier curve fees st a t₁ d₁) a t₂ d₂).subscribers.length =
      (addSubscriber tier curve fees st a t₁ d₁).subscribers.length ∧
    mapGet a (addSubscriber tier curve fees
        (addSubscriber tier curve fees st a t₁ d₁) a t₂ d₂).subscribers =
      some { tierId := 1
             subscriptionStart := t₂
             expiresAt := t₂ + subscriptionSeconds d₂
             rewardShares := shares tier curve fees t₂ d₂
             totalSpent := payment tier d₂ } ∧
    (addSubscriber tier curve fees
        (addSubscriber tier curve fees st a t₁ d₁) a t₂ d₂).totalShares =
      st.totalShares + shares tier curve fees t₁ d₁ + shares tier curve fees t₂ d₂ ∧
    (addSubscriber tier curve fees
        (addSubscriber tier curve fees st a t₁ d₁) a t₂ d₂).rewardPool =
      st.rewardPool + rewardAmount tier fees d₁ + rewardAmount tier fees d₂ ∧
    (addSubscriber tier curve fees
        (addSubscriber tier curve fees st a t₁ d₁) a t₂ d₂).creatorBalance =
      st.creatorBalance + (netPayment tier fees d₁ - rewardAmount tier fees d₁) +
        (netPayment tier fees d₂ - rewardAmount tier fees d₂) ∧
    (addSubscriber tier curve fees
        (addSubscriber tier curve fees st a t₁ d₁) a t₂ d₂).protocolEarnings =
      st.protocolEarnings + protocolFee tier fees d₁ + protocolFee tier fees d₂ ∧
    (addSubscriber tier curve fees
        (addSubscriber tier curve fees st a t₁ d₁) a t₂ d₂).clientEarnings =
      st.clientEarnings + clientFee tier fees d₁ + clientFee tier fees d₂ ∧
    (st.totalShares = sumShares st.subscribers → shares tier curve fees t₁ d₁ ≠ 0 →
      (addSubscriber tier curve fees
          (addSubscriber tier curve fees st a t₁ d₁) a t₂ d₂).totalShares ≠
        sumShares (addSubscriber tier curve fees
          (addSubscriber tier curve fees st a t₁ d₁) a t₂ d₂).subscribers) := by
  have hset₁ := mapSet_of_get_none a
    { tierId := 1
      subscriptionStart := t₁
      expiresAt := t₁ + subscriptionSeconds d₁
      rewardShares := shares tier curve fees t₁ d₁
      totalSpent := payment tier d₁ } st.subscribers hfresh
  have hsubs₂ : (addSubscriber tier curve fees
      (addSubscriber tier curve fees st a t₁ d₁) a t₂ d₂).subscribers =
      st.subscribers ++
        [(a, { tierId := 1
               subscriptionStart := t₂
               expiresAt := t₂ + subscriptionSeconds d₂
               rewardShares := shares tier curve fees t₂ d₂
               totalSpent := payment tier d₂ })] := by
    simp only [addSubscriber, hset₁]
    rw [mapSet_append_of_none a _ st.subscribers _ hfresh]
    simp [mapSet]
  refine ⟨?_, ?_, rfl, rfl, rfl, rfl, rfl, ?_⟩
  · rw [hsubs₂]
    simp only [addSubscriber, hset₁]
    simp
  · rw [hsubs₂]
    rw [mapGet_append_of_none a st.subscribers _ hfresh]
    simp [mapGet]
  · intro hinv hs₁ heq
    rw [hsubs₂, sumShares_append] at heq
    simp only [addSubscriber] at heq
    rw [hinv] at heq
    simp only [sumShares, List.map_cons, List.map_nil, List.sum_cons,
      List.sum_nil] at heq
    rcases lt_or_gt_of_ne hs₁ with h | h <;> [linarith; linarith]

/-- Witness for `duplicate_admission`: two 360-day admissions of the
same address into the empty initial state, under a configuration giving
the first admission 24 shares. -/
theorem duplicate_admission_witness :
    (addSubscriber { rewardBasisPoints := 10000, initialMintPrice := 12, pricePerPeriod := 0 }
        { numPeriods := 1, formulaBase := 2, startTimestamp := 0, minMultiplier := 0 }
        { protocolBps := 0, clientBps := 0 }
        (addSubscriber { rewardBasisPoints := 10000, initialMintPrice := 12, pricePerPeriod := 0 }
          { numPeriods := 1, formulaBase := 2, startTimestamp := 0, minMultiplier := 0 }
          { protocolBps := 0, clientBps := 0 }
          getInitialState (Addr.regular 1) 0 360) (Addr.regular 1) 0 360).totalShares ≠
      sumShares (addSubscriber
        { rewardBasisPoints := 10000, initialMintPrice := 12, pricePerPeriod := 0 }
        { numPeriods := 1, formulaBase := 2, startTimestamp := 0, minMultiplier := 0 }
        { protocolBps := 0, clientBps := 0 }
        (addSubscriber { rewardBasisPoints := 10000, initialMintPrice := 12, pricePerPeriod := 0 }
          { numPeriods := 1, formulaBase := 2, startTimestamp := 0, minMultiplier := 0 }
          { protocolBps := 0, clientBps := 0 }
          getInitialState (Addr.regular 1) 0 360) (Addr.regular 1) 0 360).subscribers := by
  refine (duplicate_admission
    { rewardBasisPoints := 10000, initialMintPrice := 12, pricePerPeriod := 0 }
    { numPeriods := 1, formulaBase := 2, startTimestamp := 0, minMultiplier := 0 }
    { protocolBps := 0, clientBps := 0 }
    getInitialState (Addr.regular 1) 0 360 0 360
    (by simp [getInitialState, mapGet])).2.2.2.2.2.2.2 ?_ ?_
  · simp [getInitialState, sumShares]
  · have hmult : calculateMultiplier
        { numPeriods := 1, formulaBase := 2, startTimestamp := 0, minMultiplier := 0 }
        0 = 2 := by
      simp only [calculateMultiplier, periodsElapsed, ONE_MONTH_SECONDS, ONE_MONTH_DAYS]
      norm_num
    simp only [shares, rewardAmount, netPayment, protocolFee, clientFee, payment,
      subscriptionMonths, ONE_MONTH_DAYS, MAX_BPS, hmult]
    norm_num

/-- **C10** (money conservation).  After any sequence of `addSubscriber`
calls starting from the initial state, `creatorBalance + rewardPool +
protocolEarnings + clientEarnings` equals the sum of the gross payments
`initialMintPrice + subscriptionMonths * pricePerPeriod` of all the
admissions performed so far: the fee split neither creates nor destroys
currency. -/
theorem conservation_of_funds (tier : TierConfig) (curve : CurveConfig)
    (fees : FeeConfig) (reqs : List AddReq) :
    (runAdds tier curve fees reqs getInitialState).creatorBalance +
        (runAdds tier curve fees reqs getInitialState).rewardPool +
        (runAdds tier curve fees reqs getInitialState).protocolEarnings +
        (runAdds tier curve fees reqs getInitialState).clientEarnings =
      (reqs.map (grossPayment tier)).sum := by
  have h0 : totalFunds getInitialState = 0 := by simp [totalFunds, getInitialState]
  have h := totalFunds_runAdds tier curve fees reqs getInitialState
  rw [h0] at h
  simp only [totalFunds] at h
  linarith

/-! ### C9: scenario length and month numbering -/

theorem simLoop_length (tier : TierConfig) (curve : CurveConfig) (fees : FeeConfig)
    (s r : ℚ) (k : ℕ) :
    ∀ (m : ℕ) (st : SubscriptionState) (cur : ℕ),
      (simLoop tier curve fees s r m k st cur).length = k := by
  induction k with
  | zero => intro m st cur; simp [simLoop]
  | succ k ih =>
      intro m st cur
      simp only [simLoop, List.length_cons]
      rw [ih]

theorem simLoop_month_field (tier : TierConfig) (curve : CurveConfig)
    (fees : FeeConfig) (s r : ℚ) (k : ℕ) :
    ∀ (m i : ℕ) (st : SubscriptionState) (cur : ℕ), i < k →
      ((simLoop tier curve fees s r m k st cur)[i]?).map SimulationResult.month =
        some (m + i) := by
  induction k with
  | zero => intro m i st cur hi; omega
  | succ k ih =>
      intro m i st cur hi
      cases i with
      | zero =>
          simp [simLoop, simMonth]
      | succ j =>
          simp only [simLoop, List.getElem?_cons_succ]
          rw [ih (m + 1) j _ _ (by omega)]
          congr 1
          omega

/-- **C9.**  `simulateScenario` returns exactly `months` snapshots and
the snapshot at zero-based index `i` carries `month = i + 1`. -/
theorem simulateScenario_length_and_months (tier : TierConfig) (curve : CurveConfig)
    (fees : FeeConfig) (start : ℚ) (months : ℕ) (rate days : ℚ) :
    (simulateScenario tier curve fees start months rate days).length = months ∧
    ∀ i, i < months →
      ((simulateScenario tier curve fees start months rate days)[i]?).map
        SimulationResult.month = some (i + 1) := by
  constructor
  · unfold simulateScenario
    exact simLoop_length tier curve fees start rate months _ _ _
  · intro i hi
    unfold simulateScenario
    rw [simLoop_month_field tier curve fees start rate months 1 i _ _ hi]
    congr 1
    omega

/-- Witness for `simulateScenario_length_and_months`: a one-month run
with the repository's parameters has one snapshot, labelled month 1. -/
theorem simulateScenario_length_and_months_witness :
    (simulateScenario
        { rewardBasisPoints := 2000, initialMintPrice := 0, pricePerPeriod := 5 }
        { numPeriods := 60, formulaBase := 6/5, startTimestamp := 0, minMultiplier := 0 }
        { protocolBps := 100, clientBps := 500 } 0 1 (3/20) 360).length = 1 ∧
    ((simulateScenario
        { rewardBasisPoints := 2000, initialMintPrice := 0, pricePerPeriod := 5 }
        { numPeriods := 60, formulaBase := 6/5, startTimestamp := 0, minMultiplier := 0 }
        { protocolBps := 100, clientBps := 500 } 0 1 (3/20) 360)[0]?).map
      SimulationResult.month = some 1 := by
  refine ⟨?_, ?_⟩
  · exact (simulateScenario_length_and_months _ _ _ 0 1 (3/20) 360).1
  · exact (simulateScenario_length_and_months _ _ _ 0 1 (3/20) 360).2 0 (by norm_num)

/-! ### C3: the growth base of each simulated month -/

theorem mapGet_append (k : Addr) (l₁ l₂ : List (Addr × Subscriber)) :
    mapGet k (l₁ ++ l₂) =
      match mapGet k l₁ with
      | some v => some v
      | none => mapGet k l₂ := by
  induction l₁ with
  | nil => simp [mapGet]
  | cons e rest ih =>
      by_cases h : k = e.1
      · simp [mapGet, h]
      · simp [mapGet, h, ih]

theorem keysBounded_fresh (l : List (Addr × Subscriber)) (h : KeysBounded l) :
    mapGet (Addr.regular (l.length + 1)) l = none := by
  by_cases hs : (mapGet (Addr.regular (l.length + 1)) l).isSome = true
  · have := h _ hs
    omega
  · exact Option.not_isSome_iff_eq_none.mp (by simpa using hs)

theorem keysBounded_snoc (l : List (Addr × Subscriber)) (v : Subscriber)
    (h : KeysBounded l) :
    KeysBounded (l ++ [(Addr.regular (l.length + 1), v)]) := by
  intro i hi
  rw [mapGet_append] at hi
  simp only [List.length_append, List.length_cons, List.length_nil]
  cases hm : mapGet (Addr.regular i) l with
  | some w =>
      have h₂ := h i (by rw [hm]; rfl)
      omega
  | none =>
      rw [hm] at hi
      simp only [mapGet] at hi
      by_cases he : Addr.regular i = Addr.regular (l.length + 1)
      · simp only [Addr.regular.injEq] at he
        omega
      · rw [if_neg he] at hi
        simp at hi

theorem addGrown_spec (tier : TierConfig) (curve : CurveConfig) (fees : FeeConfig)
    (t : ℚ) (n : ℕ) :
    ∀ st : SubscriptionState, KeysBounded st.subscribers →
      ((addGrown tier curve fees t n st).subscribers.length =
          st.subscribers.length + n ∧
        KeysBounded (addGrown tier curve fees t n st).subscribers) := by
  induction n with
  | zero =>
      intro st h
      exact ⟨by simp [addGrown], by simpa [addGrown] using h⟩
  | succ n ih =>
      intro st h
      have hfresh := keysBounded_fresh _ h
      have hsubs : (addSubscriber tier curve fees st
          (Addr.regular (st.subscribers.length + 1)) t
          (AVG_SUB_MONTHS * ONE_MONTH_DAYS)).subscribers =
          st.subscribers ++ [(Addr.regular (st.subscribers.length + 1),
            { tierId := 1
              subscriptionStart := t
              expiresAt := t + subscriptionSeconds (AVG_SUB_MONTHS * ONE_MONTH_DAYS)
              rewardShares := shares tier curve fees t (AVG_SUB_MONTHS * ONE_MONTH_DAYS)
              totalSpent := payment tier (AVG_SUB_MONTHS * ONE_MONTH_DAYS) })] :=
        mapSet_of_get_none _ _ _ hfresh
  -- the new key is fresh, so the admission appends one entry
      obtain ⟨hlen, hkb⟩ := ih (addSubscriber tier curve fees st
          (Addr.regular (st.subscribers.length + 1)) t
          (AVG_SUB_MONTHS * ONE_MONTH_DAYS))
        (by rw [hsubs]; exact keysBounded_snoc _ _ h)
      constructor
      · simp only [addGrown]
        rw [hlen, hsubs]
        simp only [List.length_append, List.length_cons, List.length_nil]
        omega
      · simpa only [addGrown] using hkb

theorem addInitialFrom_spec (tier : TierConfig) (curve : CurveConfig)
    (fees : FeeConfig) (s : ℚ) (n : ℕ) :
    ∀ (i : ℕ) (st : SubscriptionState),
      st.subscribers.length = i →
      (∀ j, (mapGet (Addr.regular j) st.subscribers).isSome = true → j ≤ i) →
      mapGet Addr.test st.subscribers = none →
      ((addInitialFrom tier curve fees s i n st).subscribers.length = i + n ∧
       (∀ j, (mapGet (Addr.regular j)
          (addInitialFrom tier curve fees s i n st).subscribers).isSome = true →
            j ≤ i + n) ∧
       mapGet Addr.test (addInitialFrom tier curve fees s i n st).subscribers = none) := by
  induction n with
  | zero =>
      intro i st h1 h2 h3
      refine ⟨by simpa [addInitialFrom] using h1, ?_, by simpa [addInitialFrom] using h3⟩
      intro j hj
      simp only [addInitialFrom] at hj
      have := h2 j hj
      omega
  | succ n ih =>
      intro i st h1 h2 h3
      have hfresh : mapGet (Addr.regular (i + 1)) st.subscribers = none := by
        by_cases hs : (mapGet (Addr.regular (i + 1)) st.subscribers).isSome = true
        · have := h2 _ hs
          omega
        · exact Option.not_isSome_iff_eq_none.mp (by simpa using hs)
      have hsubs : (addSubscriber tier curve fees st (Addr.regular (i + 1)) s
          (AVG_SUB_MONTHS * ONE_MONTH_DAYS)).subscribers =
          st.subscribers ++ [(Addr.regular (i + 1),
            { tierId := 1
              subscriptionStart := s
              expiresAt := s + subscriptionSeconds (AVG_SUB_MONTHS * ONE_MONTH_DAYS)
              rewardShares := shares tier curve fees s (AVG_SUB_MONTHS * ONE_MONTH_DAYS)
              totalSpent := payment tier (AVG_SUB_MONTHS * ONE_MONTH_DAYS) })] :=
        mapSet_of_get_none _ _ _ hfresh
      obtain ⟨ha, hb, hc⟩ := ih (i + 1)
        (addSubscriber tier curve fees st (Addr.regular (i + 1)) s
          (AVG_SUB_MONTHS * ONE_MONTH_DAYS))
        (by rw [hsubs]; simp [h1])
        (by
          intro j hj
          rw [hsubs, mapGet_append] at hj
          cases hm : mapGet (Addr.regular j) st.subscribers with
          | some w =>
              have := h2 j (by rw [hm]; rfl)
              omega
          | none =>
              rw [hm] at hj
              simp only [mapGet] at hj
              by_cases he : Addr.regular j = Addr.regular (i + 1)
              · simp only [Addr.regular.injEq] at he
                omega
              · rw [if_neg he] at hj
                simp at hj)
        (by
          rw [hsubs, mapGet_append_of_none _ _ _ h3]
          simp [mapGet])
      simp only [addInitialFrom]
      refine ⟨by rw [ha]; omega, ?_, hc⟩
      intro j hj
      have := hb j hj
      omega

/-- The state entering the month loop: the 50-subscriber cohort plus the
test subscriber, 51 entries with bounded regular keys. -/
theorem cohortState_spec (tier : TierConfig) (curve : CurveConfig) (fees : FeeConfig)
    (start days : ℚ) :
    (addSubscriber tier curve fees
        (addInitialFrom tier curve fees start 0 INITIAL_SUBSCRIBERS getInitialState)
        Addr.test start days).subscribers.length = INITIAL_SUBSCRIBERS + 1 ∧
    KeysBounded (addSubscriber tier curve fees
        (addInitialFrom tier curve fees start 0 INITIAL_SUBSCRIBERS getInitialState)
        Addr.test start days).subscribers := by
  obtain ⟨h1, h2, h3⟩ := addInitialFrom_spec tier curve fees start INITIAL_SUBSCRIBERS
    0 getInitialState (by simp [getInitialState])
    (by intro j hj; simp [getInitialState, mapGet] at hj)
    (by simp [getInitialState, mapGet])
  have hsubs : (addSubscriber tier curve fees
      (addInitialFrom tier curve fees start 0 INITIAL_SUBSCRIBERS getInitialState)
      Addr.test start days).subscribers =
      (addInitialFrom tier curve fees start 0 INITIAL_SUBSCRIBERS
        getInitialState).subscribers ++ [(Addr.test,
          { tierId := 1
            subscriptionStart := start
            expiresAt := start + subscriptionSeconds days
            rewardShares := shares tier curve fees start days
            totalSpent := payment tier days })] := by
    simp only [addSubscriber]
    exact mapSet_of_get_none _ _ _ h3
  constructor
  · rw [hsubs]
    simp only [List.length_append, List.length_cons, List.length_nil]
    omega
  · intro i hi
    rw [hsubs, mapGet_append] at hi
    cases hm : mapGet (Addr.regular i)
        (addInitialFrom tier curve fees start 0 INITIAL_SUBSCRIBERS
          getInitialState).subscribers with
    | some w =>
        have := h2 i (by rw [hm]; rfl)
        rw [hsubs]
        simp only [List.length_append, List.length_cons, List.length_nil]
        omega
    | none =>
        rw [hm] at hi
        simp [mapGet] at hi

theorem simLoop_subscribers_trace (tier : TierConfig) (curve : CurveConfig)
    (fees : FeeConfig) (s r : ℚ) (k : ℕ) :
    ∀ (m : ℕ) (st : SubscriptionState) (cur : ℕ), KeysBounded st.subscribers →
      (simLoop tier curve fees s r m k st cur).map SimulationResult.subscribers =
        regularTrace r st.subscribers.length cur k := by
  induction k with
  | zero => intro m st cur h; simp [simLoop, regularTrace]
  | succ k ih =>
      intro m st cur h
      obtain ⟨hlen, hkb⟩ := addGrown_spec tier curve fees
        (s + (m : ℚ) * ONE_MONTH_SECONDS) (grow r cur) st h
      simp only [simLoop, simMonth, List.map_cons, regularTrace]
      rw [show (⌊(cur : ℚ) * r⌋).toNat = grow r cur from rfl]
      rw [ih (m + 1) _ _ hkb]
      rw [hlen]

/-- **C3, amended.**  In `simulateScenario` the number of newly admitted
subscribers in month `m` is `floor(base * monthlyGrowthRate)` where the
base of month 1 is the *whole* map size `INITIAL_SUBSCRIBERS + 1 = 51` —
the test subscriber IS part of the first month's growth base — and the
base of every month `m ≥ 2` is the previous month's regular (non-test)
count, as the claim states: the emitted `subscribers` fields follow
exactly the recurrence `regularTrace rate 51 51 months`. -/
theorem simulateScenario_growth (tier : TierConfig) (curve : CurveConfig)
    (fees : FeeConfig) (start : ℚ) (months : ℕ) (rate days : ℚ) :
    (simulateScenario tier curve fees start months rate days).map
        SimulationResult.subscribers =
      regularTrace rate (INITIAL_SUBSCRIBERS + 1) (INITIAL_SUBSCRIBERS + 1) months := by
  obtain ⟨h1, h2⟩ := cohortState_spec tier curve fees start days
  unfold simulateScenario
  rw [simLoop_subscribers_trace tier curve fees start rate months 1 _ _ h2, h1]

/-- **C3, counterexample.**  With `monthlyGrowthRate = 1` and
`months = 1`, the code admits `floor(51 * 1) = 51` new subscribers in
month 1 (the test subscriber is inside the growth base), so the first
snapshot reports `51 + 51 - 1 = 101` regular subscribers — not the
`50 + floor(50 * 1) = 100` the claim's month-1 rule predicts. -/
theorem simulateScenario_growth_counterexample :
    (simulateScenario
        { rewardBasisPoints := 2000, initialMintPrice := 0, pricePerPeriod := 5 }
        { numPeriods := 60, formulaBase := 6/5, startTimestamp := 0, minMultiplier := 0 }
        { protocolBps := 100, clientBps := 500 } 0 1 1 360).map
        SimulationResult.subscribers = [101] ∧
    INITIAL_SUBSCRIBERS + (⌊(INITIAL_SUBSCRIBERS : ℚ) * 1⌋).toNat = 100 ∧
    (101 : ℕ) ≠ 100 := by
  refine ⟨?_, ?_, by norm_num⟩
  · obtain ⟨h1, h2⟩ := cohortState_spec
      { rewardBasisPoints := 2000, initialMintPrice := 0, pricePerPeriod := 5 }
      { numPeriods := 60, formulaBase := 6/5, startTimestamp := 0, minMultiplier := 0 }
      { protocolBps := 100, clientBps := 500 } 0 360
    unfold simulateScenario
    rw [simLoop_subscribers_trace _ _ _ 0 1 1 1 _ _ h2, h1]
    simp only [regularTrace, grow, INITIAL_SUBSCRIBERS]
    norm_num
    decide
  · norm_num [INITIAL_SUBSCRIBERS]
    decide
